import Mathlib

/-!
# PC component catalog: filter, sort, paginate

A shallow embedding of `server.go` (the `filterComponentsByTypeAndBrand`,
`sortComponents`, `paginateComponents` pipeline and the `/filtered-components`
handlers of `main` and of `setupRouter`) together with the properties proved
about it.

Conventions of the embedding
* a Go slice is a `List`; `len` is `List.length`;
* a Go `string` is a Lean `String`, compared with `==` and `<` (lexicographic
  on code points, which on valid UTF-8 is Go's byte-wise order);
* a Go `int` is an `Int` kept in the 64-bit range by `wrapInt`;
* a run-time panic (slice bounds out of range) is the value `none`;
* the library routines are taken as their documentation describes them:
  `strconv.Atoi` is the function `Atoi`, and `sort.Slice` is a parameter
  `sortSlice` of the code that calls it, constrained by `SortSliceSpec`;
* `goSortSlice` is the routine `sort.Slice` runs in Go 1.19 and later
  (`pdqsort_func`), used where the order of ties matters.
-/

namespace Catalog

/-- The record type `PCComponent` of `server.go`. `Price` is an `int16` in the
source; it is only ever compared, never computed with, so it is an `Int`.
The field `Type` is spelled `Type_` (a reserved word of Lean). -/
structure PCComponent where
  Type_ : String
  Brand : String
  Name : String
  ImageURL : String
  Price : Int
  deriving DecidableEq, Repr

/-- The condition of the `if` inside the loop of `filterComponentsByTypeAndBrand`. -/
def keeps (componentType brandFilter : String) (comp : PCComponent) : Bool :=
  (componentType == "" || comp.Type_ == componentType) &&
    (brandFilter == "" || comp.Brand == brandFilter)

/-- Embedding of `filterComponentsByTypeAndBrand`: the early return when both
filters are empty, otherwise the `for range` loop appending to
`filteredComponents` (initially nil). -/
def filterComponentsByTypeAndBrand (components : List PCComponent)
    (componentType brandFilter : String) : List PCComponent :=
  if componentType == "" && brandFilter == "" then
    components
  else
    components.foldl
      (fun filteredComponents comp =>
        if keeps componentType brandFilter comp then filteredComponents ++ [comp]
        else filteredComponents)
      []

/-! ### Machine integers and library routines -/

/-- Two's-complement wrap-around of an integer into the range of a 64-bit Go
`int`, `-2^63 ≤ r < 2^63`. -/
def wrapInt (z : Int) : Int := (z + 2 ^ 63) % 2 ^ 64 - 2 ^ 63

/-- Go `int` subtraction. -/
def intSub (a b : Int) : Int := wrapInt (a - b)

/-- Go `int` multiplication. -/
def intMul (a b : Int) : Int := wrapInt (a * b)

/-- Go `int` addition. -/
def intAdd (a b : Int) : Int := wrapInt (a + b)

/-- Value of a decimal digit, `none` for every other character. -/
def digitValue (c : Char) : Option Nat :=
  if '0' ≤ c ∧ c ≤ '9' then some (c.toNat - '0'.toNat) else none

/-- Reads a run of decimal digits, most significant first, onto `acc`. -/
def parseDigits (acc : Nat) : List Char → Option Nat
  | [] => some acc
  | c :: cs =>
    match digitValue c with
    | none => none
    | some d => parseDigits (acc * 10 + d) cs

/-- The integer a text denotes as a decimal numeral: an optional sign `+` or
`-` followed by at least one decimal digit, and nothing else. No bound on the
size of the number. -/
def decimalValue (s : String) : Option Int :=
  match s.data with
  | [] => none
  | c :: cs =>
    if c = '-' then
      match cs with
      | [] => none
      | _ :: _ => (parseDigits 0 cs).map (fun n => -(n : Int))
    else if c = '+' then
      match cs with
      | [] => none
      | _ :: _ => (parseDigits 0 cs).map (fun n => (n : Int))
    else (parseDigits 0 (c :: cs)).map (fun n => (n : Int))

/-- The library function `strconv.Atoi` on a platform with 64-bit `int`, as its
documentation describes it: a decimal numeral with optional sign is accepted
when its value fits the `int` type; everything else is an error (`none`),
a syntax error when the text is no numeral, a range error when the value does
not fit. -/
def Atoi (s : String) : Option Int :=
  match decimalValue s with
  | none => none
  | some n => if -(2 ^ 63) ≤ n ∧ n < 2 ^ 63 then some n else none

/-- The Go slice expression `s[lo:hi]` on a slice without spare capacity:
it panics (`none`) unless `0 ≤ lo ≤ hi ≤ len(s)`. -/
def sliceExpr (s : List PCComponent) (lo hi : Int) : Option (List PCComponent) :=
  if 0 ≤ lo ∧ lo ≤ hi ∧ hi ≤ (s.length : Int) then
    some ((s.drop lo.toNat).take (hi.toNat - lo.toNat))
  else none

/-- The page number `paginateComponents` works with after its first `if`:
the value of `strconv.Atoi`, replaced by 1 on error or when it is below 1. -/
def pageNumber (pageStr : String) : Int :=
  match Atoi pageStr with
  | none => 1
  | some page => if page < 1 then 1 else page

/-- Embedding of `paginateComponents`. The arithmetic is 64-bit `int`
arithmetic; the result is `none` when the final slice expression panics. -/
def paginateComponents (components : List PCComponent) (pageStr : String)
    (itemsPerPage : Int) : Option (List PCComponent) :=
  let page := pageNumber pageStr
  let startIdx := intMul (intSub page 1) itemsPerPage
  let endIdx := intAdd startIdx itemsPerPage
  if startIdx ≥ (components.length : Int) then
    some []
  else
    let endIdx := if endIdx > (components.length : Int) then (components.length : Int) else endIdx
    sliceExpr components startIdx endIdx

/-- The catalog `getMockPCComponents` of `server.go`. -/
def getMockPCComponents : List PCComponent :=
  [ ⟨"CPU", "Intel", "Intel Core i9-10900K", "https://static.shop.kz/upload/resize_cache/iblock/481/450_450_1/154212x1.jpg", 500⟩,
    ⟨"GPU", "NVIDIA", "NVIDIA GeForce RTX 3080", "https://www.nvidia.com/content/dam/en-zz/Solutions/geforce/ampere/rtx-3080-3080ti/geforce-rtx-3080-ti-product-gallery-inline-850-2.jpg", 800⟩,
    ⟨"RAM", "Corsair", "Corsair Vengeance RGB Pro 16GB", "https://static.shop.kz/upload/resize_cache/iblock/75f/jnedijtsz335v3d1uo9uzx6605coss0l/450_450_1/171347o4.jpg", 150⟩,
    ⟨"Motherboard", "ASUS", "ASUS ROG Strix Z490-E Gaming", "https://static.shop.kz/upload/resize_cache/iblock/7fa/9ybjfv07nn75rg1o27ux9q7xdo0cw1yv/450_450_1/171994x1.jpg", 300⟩,
    ⟨"Storage", "Samsung", "Samsung 970 EVO Plus 1TB", "https://static.shop.kz/upload/resize_cache/iblock/113/450_450_1/155791_1.jpg", 200⟩,
    ⟨"Power Supply", "EVGA", "EVGA SuperNOVA 850 G5", "https://static.shop.kz/upload/resize_cache/iblock/68a/450_450_1/158510_01.jpg", 150⟩,
    ⟨"CPU", "AMD", "AMD Ryzen 9 5900X", "https://static.shop.kz/upload/resize_cache/iblock/a05/450_450_1/177555n1.jpg", 550⟩,
    ⟨"GPU", "AMD", "AMD Radeon RX 6800 XT", "https://static.shop.kz/upload/resize_cache/iblock/588/450_450_1/183588n1.jpg", 700⟩,
    ⟨"RAM", "G.Skill", "G.Skill Trident Z Neo 32GB", "https://static.shop.kz/upload/resize_cache/iblock/c3e/450_450_1/175271n1.jpg", 250⟩,
    ⟨"Motherboard", "MSI", "MSI MPG X570 Gaming Pro Carbon WiFi", "https://static.shop.kz/upload/resize_cache/iblock/ba3/450_450_1/177844x1.jpg", 280⟩,
    ⟨"Storage", "Western Digital", "WD Black SN750 NVMe SSD 1TB", "https://static.shop.kz/upload/resize_cache/iblock/79a/450_450_1/179287_1.jpg", 180⟩,
    ⟨"Power Supply", "Corsair", "Corsair RM850x 850W", "https://static.shop.kz/upload/resize_cache/iblock/a42/450_450_1/183238x1.jpg", 160⟩ ]

/-- The slice `xs[start, stop)` the specification of the paginate stage
prescribes for page `p` and page size `k`, over unbounded integers:
`start = (p-1)*k` and `stop = min(start+k, len(xs))`. -/
def specPage (xs : List PCComponent) (p k : Int) : List PCComponent :=
  let start := (p - 1) * k
  let stop := min (start + k) (xs.length : Int)
  (xs.drop start.toNat).take (stop - start).toNat

/-- The number of pages of `n` records at `k` records a page, `ceil(n/k)`. -/
def pageCount (n k : Nat) : Nat := (n + k - 1) / k

/-! ### Sort stage -/

/-- The library routine `sort.Slice(x, less)` seen as a function: from the
`less` function (on the elements that sit at the two indices) and the content
of the slice before the call to the content of the slice after the call. -/
abbrev SortSlice := (PCComponent → PCComponent → Bool) → List PCComponent → List PCComponent

/-- What the documentation of package `sort` requires of `less`: a strict weak
ordering (irreflexive, transitive, with transitive incomparability). -/
structure StrictWeakOrder (less : PCComponent → PCComponent → Bool) : Prop where
  irrefl : ∀ a, less a a = false
  trans : ∀ a b c, less a b = true → less b c = true → less a c = true
  incomp_trans : ∀ a b c, less a b = false → less b a = false →
    less b c = false → less c b = false → less a c = false ∧ less c a = false

/-- What the documentation of `sort.Slice` promises, for a `less` that is a
strict weak ordering: the slice is rearranged (the result is a permutation of
the input) so that no element is `less` than an element before it. Nothing is
promised on the order of elements neither of which is `less` than the other
("The sort is not guaranteed to be stable"). -/
structure SortSliceSpec (sortSlice : SortSlice) : Prop where
  perm : ∀ less xs, StrictWeakOrder less → (sortSlice less xs).Perm xs
  sorted : ∀ less xs, StrictWeakOrder less →
    (sortSlice less xs).Pairwise (fun a b => less b a = false)

/-- Embedding of `sortComponents`, relative to the library routine
`sort.Slice`. The closures `components[i].Name < components[j].Name` and
`components[i].Price < components[j].Price` become `less` on elements. -/
def sortComponents (sortSlice : SortSlice) (components : List PCComponent)
    (sortBy : String) : List PCComponent :=
  if sortBy = "name" then
    sortSlice (fun x y => decide (x.Name < y.Name)) components
  else if sortBy = "price" then
    sortSlice (fun x y => decide (x.Price < y.Price)) components
  else
    components

/-- A routine that meets `SortSliceSpec` and keeps ties in input order:
insertion sort, the method the Go library applies to short slices. -/
def insertionSlice : SortSlice :=
  fun less xs => xs.insertionSort (fun a b => less b a = false)

/-- The list `out` keeps the relative order in `xs` of any two records with
equal `key`: whenever `a` comes before `b` in `xs` and their keys are equal,
`a` comes before `b` in `out`. -/
def KeepsTieOrder {κ : Type} (key : PCComponent → κ) (xs out : List PCComponent) : Prop :=
  ∀ a b, key a = key b → [a, b].Sublist xs → [a, b].Sublist out

/-! ### The library routine `sort.Slice`

`sort.Slice(x, less)` of Go 1.19 and later runs `pdqsort_func` (file
`zsortfunc.go` of package `sort`) on the whole slice, with
`limit = bits.Len(uint(length))`. The routines below follow that file function
by function. The slice is a `List`, indices are natural numbers, and every
Go loop is a recursion on its own counter or on a count of iterations that
the loop cannot exceed. -/

/-- The call `data.Less(i, j)`: `less` on the elements now at `i` and `j`. -/
def lessAt (less : PCComponent → PCComponent → Bool) (data : List PCComponent)
    (i j : Nat) : Bool :=
  match data[i]?, data[j]? with
  | some x, some y => less x y
  | _, _ => false

/-- The call `data.Swap(i, j)`. -/
def swapAt (data : List PCComponent) (i j : Nat) : List PCComponent :=
  match data[i]?, data[j]? with
  | some x, some y => (data.set i y).set j x
  | _, _ => data

/-- The inner loop of `insertionSort_func`,
`for j := i; j > a && data.Less(j, j-1); j-- \x7b data.Swap(j, j-1) \x7d`. -/
def insertionInner (less : PCComponent → PCComponent → Bool) (a : Nat) :
    Nat → List PCComponent → List PCComponent
  | 0, data => data
  | j + 1, data =>
    if j + 1 > a && lessAt less data (j + 1) j then
      insertionInner less a j (swapAt data (j + 1) j)
    else data

/-- The outer loop of `insertionSort_func`, `for i := a + 1; i < b; i++`,
entered with at most `steps` iterations to go. -/
def insertionOuter (less : PCComponent → PCComponent → Bool) (a b : Nat) :
    Nat → Nat → List PCComponent → List PCComponent
  | 0, _, data => data
  | steps + 1, i, data =>
    if i < b then insertionOuter less a b steps (i + 1) (insertionInner less a i data)
    else data

/-- `insertionSort_func`: sorts `data[a:b]` using insertion sort. -/
def insertionSort_func (less : PCComponent → PCComponent → Bool)
    (data : List PCComponent) (a b : Nat) : List PCComponent :=
  insertionOuter less a b (b - a) (a + 1) data

/-- `siftDown_func` on `data[lo:hi]` with the heap rooted at `first`; the loop
variable `root` grows at every iteration and stays below `hi`. -/
def siftDown_func (less : PCComponent → PCComponent → Bool) (hi first : Nat) :
    Nat → Nat → List PCComponent → List PCComponent
  | 0, _, data => data
  | steps + 1, root, data =>
    let child := 2 * root + 1
    if child ≥ hi then data
    else
      let child :=
        if child + 1 < hi && lessAt less data (first + child) (first + child + 1) then child + 1
        else child
      if !lessAt less data (first + root) (first + child) then data
      else siftDown_func less hi first steps child (swapAt data (first + root) (first + child))

/-- First loop of `heapSort_func`, `for i := (hi - 1) / 2; i >= 0; i--`. -/
def heapBuild (less : PCComponent → PCComponent → Bool) (hi first : Nat) :
    Nat → List PCComponent → List PCComponent
  | 0, data => siftDown_func less hi first hi 0 data
  | i + 1, data => heapBuild less hi first i (siftDown_func less hi first hi (i + 1) data)

/-- Second loop of `heapSort_func`, `for i := hi - 1; i >= 0; i--`. -/
def heapPop (less : PCComponent → PCComponent → Bool) (first : Nat) :
    Nat → List PCComponent → List PCComponent
  | 0, data => siftDown_func less 0 first 0 0 (swapAt data first first)
  | i + 1, data =>
    heapPop less first i
      (siftDown_func less (i + 1) first (i + 1) 0 (swapAt data first (first + (i + 1))))

/-- `heapSort_func` on `data[a:b]`. -/
def heapSort_func (less : PCComponent → PCComponent → Bool)
    (data : List PCComponent) (a b : Nat) : List PCComponent :=
  let first := a
  let hi := b - a
  if hi = 0 then data
  else heapPop less first (hi - 1) (heapBuild less hi first ((hi - 1) / 2) data)

/-- A loop `for i <= j && p(i) \x7b i++ \x7d`; gives the final `i`. -/
def scanUp (p : Nat → Bool) (j : Nat) : Nat → Nat → Nat
  | 0, i => i
  | steps + 1, i => if i ≤ j && p i then scanUp p j steps (i + 1) else i

/-- A loop `for i <= j && p(j) \x7b j-- \x7d`; gives the final `j`. -/
def scanDown (p : Nat → Bool) (i : Nat) : Nat → Nat
  | 0 => 0
  | j + 1 => if i ≤ j + 1 && p (j + 1) then scanDown p i j else j + 1

/-- The `for` loop of `partition_func`; gives the slice and the final `j`. -/
def partitionLoop (less : PCComponent → PCComponent → Bool) (a : Nat) :
    Nat → List PCComponent → Nat → Nat → List PCComponent × Nat
  | 0, data, _, j => (data, j)
  | steps + 1, data, i, j =>
    let i := scanUp (fun i => lessAt less data i a) j (j + 1 - i) i
    let j := scanDown (fun j => !lessAt less data j a) i j
    if i > j then (data, j)
    else partitionLoop less a steps (swapAt data i j) (i + 1) (j - 1)

/-- `partition_func`: partitions `data[a:b]` around the element at `pivot`;
gives the slice, the new index of the pivot and `alreadyPartitioned`. -/
def partition_func (less : PCComponent → PCComponent → Bool) (data : List PCComponent)
    (a b pivot : Nat) : List PCComponent × Nat × Bool :=
  let data := swapAt data a pivot
  let i := a + 1
  let j := b - 1
  let i := scanUp (fun i => lessAt less data i a) j (j + 1 - i) i
  let j := scanDown (fun j => !lessAt less data j a) i j
  if i > j then (swapAt data j a, j, true)
  else
    let data := swapAt data i j
    let r := partitionLoop less a (b - a) data (i + 1) (j - 1)
    (swapAt r.1 r.2 a, r.2, false)

/-- The `for` loop of `partitionEqual_func`; gives the slice and the final `i`. -/
def partitionEqualLoop (less : PCComponent → PCComponent → Bool) (a : Nat) :
    Nat → List PCComponent → Nat → Nat → List PCComponent × Nat
  | 0, data, i, _ => (data, i)
  | steps + 1, data, i, j =>
    let i := scanUp (fun i => !lessAt less data a i) j (j + 1 - i) i
    let j := scanDown (fun j => lessAt less data a j) i j
    if i > j then (data, i)
    else partitionEqualLoop less a steps (swapAt data i j) (i + 1) (j - 1)

/-- `partitionEqual_func`: partitions `data[a:b]` into the elements equal to
the pivot and the elements greater than it; gives the slice and the index
where the second part starts. -/
def partitionEqual_func (less : PCComponent → PCComponent → Bool) (data : List PCComponent)
    (a b pivot : Nat) : List PCComponent × Nat :=
  let data := swapAt data a pivot
  partitionEqualLoop less a (b - a + 1) data (a + 1) (b - 1)

/-- In `partialInsertionSort_func`,
`for j := i - 1; j >= 1; j-- \x7b if !data.Less(j, j-1) \x7b break \x7d; data.Swap(j, j-1) \x7d`. -/
def shiftLeft (less : PCComponent → PCComponent → Bool) :
    Nat → List PCComponent → List PCComponent
  | 0, data => data
  | j + 1, data =>
    if !lessAt less data (j + 1) j then data
    else shiftLeft less j (swapAt data (j + 1) j)

/-- In `partialInsertionSort_func`,
`for j := i + 1; j < b; j++ \x7b if !data.Less(j, j-1) \x7b break \x7d; data.Swap(j, j-1) \x7d`. -/
def shiftRight (less : PCComponent → PCComponent → Bool) (b : Nat) :
    Nat → Nat → List PCComponent → List PCComponent
  | 0, _, data => data
  | steps + 1, j, data =>
    if j < b then
      if !lessAt less data j (j - 1) then data
      else shiftRight less b steps (j + 1) (swapAt data j (j - 1))
    else data

/-- The loop `for j := 0; j < maxSteps; j++` of `partialInsertionSort_func`,
with `steps` iterations to go. -/
def partialInsertionLoop (less : PCComponent → PCComponent → Bool) (a b : Nat) :
    Nat → Nat → List PCComponent → List PCComponent × Bool
  | 0, _, data => (data, false)
  | steps + 1, i, data =>
    let i := scanUp (fun i => !lessAt less data i (i - 1)) (b - 1) (b - i) i
    if i = b then (data, true)
    else if b - a < 50 then (data, false)
    else
      let data := swapAt data i (i - 1)
      let data := if i - a ≥ 2 then shiftLeft less (i - 1) data else data
      let data := if b - i ≥ 2 then shiftRight less b (b - i) (i + 1) data else data
      partialInsertionLoop less a b steps i data

/-- `partialInsertionSort_func`: partially sorts `data[a:b]`, and says whether
the slice is sorted at the end (`maxSteps = 5`, `shortestShifting = 50`). -/
def partialInsertionSort_func (less : PCComponent → PCComponent → Bool)
    (data : List PCComponent) (a b : Nat) : List PCComponent × Bool :=
  partialInsertionLoop less a b 5 (a + 1) data

/-- `bits.Len(x)`: the number of bits needed to write `x`, 0 for `x = 0`. -/
def bitsLen : Nat → Nat → Nat
  | 0, _ => 0
  | steps + 1, x => if x = 0 then 0 else bitsLen steps (x / 2) + 1

/-- `nextPowerOfTwo(length)`, that is `1 << bits.Len(uint(length))`. -/
def nextPowerOfTwo (length : Nat) : Nat := 2 ^ bitsLen length length

/-- `xorshift.Next` on a `uint64` state (shifts 13, 7 and 17). It is used by
`breakPatterns_func` only, which a slice of 13 elements never reaches. -/
def xorshiftNext (r : Nat) : Nat :=
  let r := r ^^^ ((r <<< 13) % 2 ^ 64)
  let r := r ^^^ (r >>> 7)
  r ^^^ ((r <<< 17) % 2 ^ 64)

/-- The loop `for i := 0; i < 3; i++` of `breakPatterns_func`. -/
def breakPatternsLoop (a length modulus idx : Nat) :
    Nat → Nat → Nat → List PCComponent → List PCComponent
  | 0, _, _, data => data
  | steps + 1, i, random, data =>
    let random := xorshiftNext random
    let other := random &&& (modulus - 1)
    let other := if other ≥ length then other - length else other
    breakPatternsLoop a length modulus idx steps (i + 1) random
      (swapAt data (idx - 1 + i) (a + other))

/-- `breakPatterns_func`: scatters three elements around the middle of
`data[a:b]`. -/
def breakPatterns_func (data : List PCComponent) (a b : Nat) : List PCComponent :=
  let length := b - a
  if length ≥ 8 then
    breakPatternsLoop a length (nextPowerOfTwo length) (a + (length / 4) * 2 - 1) 3 0 length data
  else data

/-- The `sortedHint` of `choosePivot_func`. -/
inductive SortedHint where
  | unknownHint
  | increasingHint
  | decreasingHint
  deriving DecidableEq, Repr

/-- `order2_func`: gives `(x, y)` among `(a, b)` and `(b, a)` with
`data[x] <= data[y]`, together with the updated count of swaps. -/
def order2_func (less : PCComponent → PCComponent → Bool) (data : List PCComponent)
    (a b swaps : Nat) : Nat × Nat × Nat :=
  if lessAt less data b a then (b, a, swaps + 1) else (a, b, swaps)

/-- `median_func`: the index of the median of `data[a]`, `data[b]`, `data[c]`,
together with the updated count of swaps. -/
def median_func (less : PCComponent → PCComponent → Bool) (data : List PCComponent)
    (a b c swaps : Nat) : Nat × Nat :=
  let r1 := order2_func less data a b swaps
  let r2 := order2_func less data r1.2.1 c r1.2.2
  let r3 := order2_func less data r1.1 r2.1 r2.2.2
  (r3.2.1, r3.2.2)

/-- `medianAdjacent_func`: the median of `data[a-1]`, `data[a]`, `data[a+1]`. -/
def medianAdjacent_func (less : PCComponent → PCComponent → Bool) (data : List PCComponent)
    (a swaps : Nat) : Nat × Nat :=
  median_func less data (a - 1) a (a + 1) swaps

/-- `choosePivot_func`: chooses a pivot in `data[a:b]` (`shortestNinther = 50`,
`maxSwaps = 12`). -/
def choosePivot_func (less : PCComponent → PCComponent → Bool) (data : List PCComponent)
    (a b : Nat) : Nat × SortedHint :=
  let l := b - a
  let i := a + l / 4 * 1
  let j := a + l / 4 * 2
  let k := a + l / 4 * 3
  let r :=
    if l ≥ 8 then
      if l ≥ 50 then
        let ri := medianAdjacent_func less data i 0
        let rj := medianAdjacent_func less data j ri.2
        let rk := medianAdjacent_func less data k rj.2
        median_func less data ri.1 rj.1 rk.1 rk.2
      else median_func less data i j k 0
    else (j, 0)
  if r.2 = 0 then (r.1, SortedHint.increasingHint)
  else if r.2 = 12 then (r.1, SortedHint.decreasingHint)
  else (r.1, SortedHint.unknownHint)

/-- The loop of `reverseRange_func`, `for i < j \x7b data.Swap(i, j); i++; j-- \x7d`. -/
def reverseRangeLoop : Nat → Nat → Nat → List PCComponent → List PCComponent
  | 0, _, _, data => data
  | steps + 1, i, j, data =>
    if i < j then reverseRangeLoop steps (i + 1) (j - 1) (swapAt data i j) else data

/-- `reverseRange_func`: reverses `data[a:b]`. -/
def reverseRange_func (data : List PCComponent) (a b : Nat) : List PCComponent :=
  reverseRangeLoop (b - a) a (b - 1) data

/-- `pdqsort_func`: sorts `data[a:b]`. One step of the recursion is one
iteration of the `for` loop; the recursive call of the Go function starts the
loop afresh on the shorter part, with both flags `true`. Every iteration
shortens `data[a:b]`, so `steps > b - a` iterations are never used up. -/
def pdqsort_func (less : PCComponent → PCComponent → Bool) :
    Nat → List PCComponent → Nat → Nat → Nat → Bool → Bool → List PCComponent
  | 0, data, _, _, _, _, _ => data
  | steps + 1, data, a, b, limit, wasBalanced, wasPartitioned =>
    let length := b - a
    if length ≤ 12 then insertionSort_func less data a b
    else if limit = 0 then heapSort_func less data a b
    else
      let data1 := if !wasBalanced then breakPatterns_func data a b else data
      let limit := if !wasBalanced then limit - 1 else limit
      let ph := choosePivot_func less data1 a b
      let data2 :=
        if ph.2 = SortedHint.decreasingHint then reverseRange_func data1 a b else data1
      let pivot := if ph.2 = SortedHint.decreasingHint then (b - 1) - (ph.1 - a) else ph.1
      let hint :=
        if ph.2 = SortedHint.decreasingHint then SortedHint.increasingHint else ph.2
      let ps :=
        if wasBalanced && wasPartitioned && hint = SortedHint.increasingHint then
          partialInsertionSort_func less data2 a b
        else (data2, false)
      if ps.2 then ps.1
      else if a > 0 && !lessAt less ps.1 (a - 1) pivot then
        let pe := partitionEqual_func less ps.1 a b pivot
        pdqsort_func less steps pe.1 pe.2 b limit wasBalanced wasPartitioned
      else
        let pt := partition_func less ps.1 a b pivot
        let mid := pt.2.1
        let leftLen := mid - a
        let rightLen := b - mid
        let balanceThreshold := length / 8
        if leftLen < rightLen then
          pdqsort_func less steps (pdqsort_func less steps pt.1 a mid limit true true)
            (mid + 1) b limit (leftLen ≥ balanceThreshold) pt.2.2
        else
          pdqsort_func less steps (pdqsort_func less steps pt.1 (mid + 1) b limit true true)
            a mid limit (rightLen ≥ balanceThreshold) pt.2.2

/-- The library routine `sort.Slice` of Go 1.19 and later:
`pdqsort_func(lessSwap\x7bless, swap\x7d, 0, length, bits.Len(uint(length)))`. -/
def goSortSlice : SortSlice :=
  fun less xs => pdqsort_func less (xs.length + 1) xs 0 xs.length (bitsLen xs.length xs.length)
    true true

/-- The catalog with a thirteenth record, priced 150, appended. -/
def thirteenComponents : List PCComponent :=
  getMockPCComponents ++ [⟨"RAM", "Kingston", "Kingston Fury Beast 16GB", "", 150⟩]

/-! ### Request handlers -/

/-- The query parameters of `/filtered-components`, as `c.Query` returns them
(the empty string for an absent parameter). -/
structure Query where
  type_ : String
  brand : String
  sort : String
  page : String
  deriving DecidableEq, Repr

/-- Outcome of a `/filtered-components` handler: the 404 response with body
`\x7b"error":"No data available"\x7d`, the 200 response rendering a page of
records, or a run-time panic inside the handler. -/
inductive Response where
  | notFound
  | ok (page : List PCComponent)
  | panicked
  deriving DecidableEq, Repr

/-- Embedding of `checkError`: `true` when it writes the 404 response and
returns an error, that is when the data is empty. -/
def checkError (data : List PCComponent) : Bool := data.length == 0

/-- The `/filtered-components` handler of `main` in `server.go`, which calls
`checkError` after each of the three stages. -/
def mainHandler (sortSlice : SortSlice) (q : Query) : Response :=
  let itemsPerPage : Int := 3
  let components := getMockPCComponents
  let filteredComponents := filterComponentsByTypeAndBrand components q.type_ q.brand
  if checkError filteredComponents then Response.notFound
  else
    let sortedComponents := sortComponents sortSlice filteredComponents q.sort
    if checkError sortedComponents then Response.notFound
    else
      match paginateComponents sortedComponents q.page itemsPerPage with
      | none => Response.panicked
      | some paginatedComponents =>
        if checkError paginatedComponents then Response.notFound
        else Response.ok paginatedComponents

/-- The `/filtered-components` handler of `setupRouter` in
`integration_main_test.go`, which tests for emptiness once, after filtering. -/
def setupRouterHandler (sortSlice : SortSlice) (q : Query) : Response :=
  let itemsPerPage : Int := 3
  let components := getMockPCComponents
  let filteredComponents := filterComponentsByTypeAndBrand components q.type_ q.brand
  if filteredComponents.length == 0 then Response.notFound
  else
    let sortedComponents := sortComponents sortSlice filteredComponents q.sort
    match paginateComponents sortedComponents q.page itemsPerPage with
    | none => Response.panicked
    | some paginatedComponents => Response.ok paginatedComponents

/-! ## Filter stage -/

theorem filter_loop_eq (p : PCComponent → Bool) (xs acc : List PCComponent) :
    xs.foldl (fun out c => if p c then out ++ [c] else out) acc = acc ++ xs.filter p := by
  induction xs generalizing acc with
  | nil => simp
  | cons x xs ih =>
    by_cases hx : p x = true
    · simp [List.foldl_cons, ih, hx, List.filter_cons]
    · simp [List.foldl_cons, ih, hx, List.filter_cons]

theorem filter_eq_filter (xs : List PCComponent) (t b : String) :
    filterComponentsByTypeAndBrand xs t b = xs.filter (keeps t b) := by
  unfold filterComponentsByTypeAndBrand
  split
  · rename_i h
    have ht : t = "" := by simp at h; exact h.1
    have hb : b = "" := by simp at h; exact h.2
    subst ht; subst hb
    symm
    rw [List.filter_eq_self]
    intro a _
    simp [keeps]
  · rw [filter_loop_eq]
    simp

/-- C1: `filterComponentsByTypeAndBrand` returns exactly the records of the
input, in input order, for which (t is empty or `Type == t`) and (b is empty or
`Brand == b`), string equality being exact; in particular, for a non-empty t
every returned record has `Type = t`. -/
theorem filter_contract (xs : List PCComponent) (t b : String) :
    filterComponentsByTypeAndBrand xs t b
        = xs.filter (fun c => decide ((t = "" ∨ c.Type_ = t) ∧ (b = "" ∨ c.Brand = b)))
      ∧ (t ≠ "" → ∀ c ∈ filterComponentsByTypeAndBrand xs t b, c.Type_ = t) := by
  have hk : (fun c : PCComponent => decide ((t = "" ∨ c.Type_ = t) ∧ (b = "" ∨ c.Brand = b)))
      = keeps t b := by
    funext c
    rw [Bool.eq_iff_iff]
    simp [keeps]
  refine ⟨by rw [hk, filter_eq_filter], ?_⟩
  intro ht c hc
  rw [filter_eq_filter, List.mem_filter] at hc
  have := hc.2
  simp [keeps, ht] at this
  exact this.1

/-- C8: filtering is idempotent. -/
theorem filter_idempotent (C : List PCComponent) (t b : String) :
    filterComponentsByTypeAndBrand (filterComponentsByTypeAndBrand C t b) t b
      = filterComponentsByTypeAndBrand C t b := by
  simp [filter_eq_filter, List.filter_filter]

/-! ## Sort stage -/

/-- Comparing records by `<` on a linearly ordered key is a strict weak ordering. -/
theorem strictWeakOrder_of_key {κ : Type} [LinearOrder κ] (key : PCComponent → κ)
    (dec : ∀ x y : PCComponent, Decidable (key x < key y)) :
    StrictWeakOrder (fun x y => @decide (key x < key y) (dec x y)) where
  irrefl a := by simp
  trans a b c hab hbc := by
    simp only [decide_eq_true_eq] at *
    exact lt_trans hab hbc
  incomp_trans a b c h1 h2 h3 h4 := by
    simp only [decide_eq_false_iff_not, not_lt] at *
    exact ⟨le_trans h3 h1, le_trans h2 h4⟩

/-- For a conforming `sort.Slice`, sorting with `less` = "key is smaller" gives
a permutation in non-decreasing key order. -/
theorem sortSlice_key {κ : Type} [LinearOrder κ] (key : PCComponent → κ)
    (dec : ∀ x y : PCComponent, Decidable (key x < key y))
    (sortSlice : SortSlice) (h : SortSliceSpec sortSlice) (xs : List PCComponent) :
    (sortSlice (fun x y => @decide (key x < key y) (dec x y)) xs).Perm xs ∧
      (sortSlice (fun x y => @decide (key x < key y) (dec x y)) xs).Pairwise
        (fun a b => key a ≤ key b) := by
  refine ⟨h.perm _ xs (strictWeakOrder_of_key key dec), ?_⟩
  have hs := h.sorted _ xs (strictWeakOrder_of_key key dec)
  refine hs.imp ?_
  intro a b hab
  simpa using hab

theorem insertionSort_perm_sorted (less : PCComponent → PCComponent → Bool)
    (xs : List PCComponent) :
    (xs.insertionSort (fun a b => less b a = false)).Perm xs ∧
      (StrictWeakOrder less →
        (xs.insertionSort (fun a b => less b a = false)).Pairwise
          (fun a b => less b a = false)) := by
  refine ⟨List.perm_insertionSort _ xs, ?_⟩
  intro hsw
  haveI : IsTotal PCComponent (fun a b => less b a = false) := ⟨by
    intro a b
    by_cases hba : less b a = true
    · right
      by_contra hab
      have := hsw.trans a b a (by simpa using hab) hba
      simp [hsw.irrefl a] at this
    · left
      simpa using hba⟩
  haveI : IsTrans PCComponent (fun a b => less b a = false) := ⟨by
    intro a b c hab hbc
    by_cases h1 : less a b = true
    · by_cases h2 : less b c = true
      · have hac := hsw.trans a b c h1 h2
        by_contra hca
        have := hsw.trans c a b (by simpa using hca) h1
        simp [hbc] at this
      · by_contra hca
        have h3 := hsw.trans c a b (by simpa using hca) h1
        simp [hbc] at h3
    · by_cases h2 : less b c = true
      · by_contra hca
        have h3 := hsw.trans b c a h2 (by simpa using hca)
        simp [hab] at h3
      · exact (hsw.incomp_trans a b c (by simpa using h1) hab (by simpa using h2) hbc).2⟩
  exact List.sorted_insertionSort (fun a b => less b a = false) xs

theorem insertionSlice_spec : SortSliceSpec insertionSlice where
  perm less xs _ := (insertionSort_perm_sorted less xs).1
  sorted less xs h := (insertionSort_perm_sorted less xs).2 h

/-- C3: for a `sort.Slice` that keeps its documented promise,
`sortComponents xs "name"` is a permutation of `xs` whose `Name` fields are in
non-decreasing lexicographic order. -/
theorem sortComponents_name_sorted_perm (sortSlice : SortSlice)
    (h : SortSliceSpec sortSlice) (xs : List PCComponent) :
    (sortComponents sortSlice xs "name").Perm xs ∧
      (sortComponents sortSlice xs "name").Pairwise (fun a b => a.Name ≤ b.Name) := by
  have hk := sortSlice_key (fun c => c.Name)
    (fun x y => String.decidableLT x.Name y.Name) sortSlice h xs
  simpa [sortComponents] using hk

/-- Witness of C3: the first three catalog records, sorted by insertion sort. -/
theorem sortComponents_name_sorted_perm_witness :
    SortSliceSpec insertionSlice ∧
      (sortComponents insertionSlice (getMockPCComponents.take 3) "name").Perm
        (getMockPCComponents.take 3) ∧
      (sortComponents insertionSlice (getMockPCComponents.take 3) "name").Pairwise
        (fun a b => a.Name ≤ b.Name) :=
  ⟨insertionSlice_spec,
    sortComponents_name_sorted_perm insertionSlice insertionSlice_spec
      (getMockPCComponents.take 3)⟩

/-- C9: for a `sort.Slice` that keeps its documented promise,
`sortComponents xs "price"` is a permutation of `xs` whose `Price` fields are
in non-decreasing numeric order. -/
theorem sortComponents_price_sorted_perm (sortSlice : SortSlice)
    (h : SortSliceSpec sortSlice) (xs : List PCComponent) :
    (sortComponents sortSlice xs "price").Perm xs ∧
      (sortComponents sortSlice xs "price").Pairwise (fun a b => a.Price ≤ b.Price) := by
  have hk := sortSlice_key (fun c => c.Price) (fun x y => inferInstance) sortSlice h xs
  have hne : ¬ ("price" = "name") := by decide
  simpa [sortComponents, hne] using hk

/-- Witness of C9: the whole catalog, sorted by insertion sort. -/
theorem sortComponents_price_sorted_perm_witness :
    SortSliceSpec insertionSlice ∧
      (sortComponents insertionSlice getMockPCComponents "price").Perm getMockPCComponents ∧
      (sortComponents insertionSlice getMockPCComponents "price").Pairwise
        (fun a b => a.Price ≤ b.Price) :=
  ⟨insertionSlice_spec,
    sortComponents_price_sorted_perm insertionSlice insertionSlice_spec getMockPCComponents⟩

/-- C10: for a sort key other than "name" and "price", the empty key included,
`sortComponents` returns its input unchanged, whatever `sort.Slice` does. -/
theorem sortComponents_other_key (sortSlice : SortSlice) (xs : List PCComponent)
    (key : String) (hn : key ≠ "name") (hp : key ≠ "price") :
    sortComponents sortSlice xs key = xs := by
  simp [sortComponents, hn, hp]

/-- Witness of C10: the empty key and the key "brand" on the catalog. -/
theorem sortComponents_other_key_witness :
    sortComponents insertionSlice getMockPCComponents "" = getMockPCComponents ∧
      sortComponents insertionSlice getMockPCComponents "brand" = getMockPCComponents :=
  ⟨sortComponents_other_key insertionSlice getMockPCComponents "" (by decide) (by decide),
    sortComponents_other_key insertionSlice getMockPCComponents "brand" (by decide) (by decide)⟩

/-- On the catalog, 12 records, `sort.Slice` by price is insertion sort and
keeps the two records priced 150 in input order. -/
theorem goSortSlice_catalog_by_price :
    (sortComponents goSortSlice getMockPCComponents "price").map (fun c => c.Name) =
      ["Corsair Vengeance RGB Pro 16GB", "EVGA SuperNOVA 850 G5", "Corsair RM850x 850W",
        "WD Black SN750 NVMe SSD 1TB", "Samsung 970 EVO Plus 1TB", "G.Skill Trident Z Neo 32GB",
        "MSI MPG X570 Gaming Pro Carbon WiFi", "ASUS ROG Strix Z490-E Gaming",
        "Intel Core i9-10900K", "AMD Ryzen 9 5900X", "AMD Radeon RX 6800 XT",
        "NVIDIA GeForce RTX 3080"] := by
  decide

/-- C4, counterexample: on the catalog followed by a thirteenth record priced
150, `sortComponents` with key "price" and the library's `sort.Slice` returns
that record first, before the two catalog records priced 150 that precede it
in the input. With 13 elements `pdqsort_func` no longer sorts by insertion:
it picks the record priced 300 as pivot, and `partition_func` swaps the
thirteenth record to index 1, ahead of the records with the same price. -/
theorem sortComponents_not_stable :
    (sortComponents goSortSlice thirteenComponents "price").map (fun c => c.Name) =
        ["Kingston Fury Beast 16GB", "Corsair Vengeance RGB Pro 16GB", "EVGA SuperNOVA 850 G5",
          "Corsair RM850x 850W", "WD Black SN750 NVMe SSD 1TB", "Samsung 970 EVO Plus 1TB",
          "G.Skill Trident Z Neo 32GB", "MSI MPG X570 Gaming Pro Carbon WiFi",
          "ASUS ROG Strix Z490-E Gaming", "Intel Core i9-10900K", "AMD Ryzen 9 5900X",
          "AMD Radeon RX 6800 XT", "NVIDIA GeForce RTX 3080"] ∧
      ¬ KeepsTieOrder (fun c => c.Price) thirteenComponents
        (sortComponents goSortSlice thirteenComponents "price") := by
  refine ⟨by decide, ?_⟩
  intro hk
  have h2 := hk
    ⟨"RAM", "Corsair", "Corsair Vengeance RGB Pro 16GB", "https://static.shop.kz/upload/resize_cache/iblock/75f/jnedijtsz335v3d1uo9uzx6605coss0l/450_450_1/171347o4.jpg", 150⟩
    ⟨"RAM", "Kingston", "Kingston Fury Beast 16GB", "", 150⟩
    rfl (by decide)
  revert h2
  decide

/-- C4, amended: for a `sort.Slice` that keeps its documented promise and key
"name" or "price", the output of `sortComponents` is in non-decreasing key
order and, for every key value, holds the same records with that value as the
input (as a multiset); their relative order is left open. -/
theorem sortComponents_ties_as_multiset (sortSlice : SortSlice)
    (h : SortSliceSpec sortSlice) (xs : List PCComponent) :
    ((sortComponents sortSlice xs "name").Pairwise (fun a b => a.Name ≤ b.Name) ∧
        ∀ v : String, ((sortComponents sortSlice xs "name").filter (fun c => c.Name = v)).Perm
          (xs.filter (fun c => c.Name = v))) ∧
      ((sortComponents sortSlice xs "price").Pairwise (fun a b => a.Price ≤ b.Price) ∧
        ∀ v : Int, ((sortComponents sortSlice xs "price").filter (fun c => c.Price = v)).Perm
          (xs.filter (fun c => c.Price = v))) := by
  have hn := sortSlice_key (fun c => c.Name)
    (fun x y => String.decidableLT x.Name y.Name) sortSlice h xs
  have hp := sortSlice_key (fun c => c.Price) (fun x y => inferInstance) sortSlice h xs
  have hne : ¬ ("price" = "name") := by decide
  simp only [sortComponents, hne, if_true, if_false]
  exact ⟨⟨hn.2, fun v => hn.1.filter _⟩, ⟨hp.2, fun v => hp.1.filter _⟩⟩

/-- Witness of C4 (amended): the catalog, with insertion sort for `sort.Slice`. -/
theorem sortComponents_ties_as_multiset_witness :
    SortSliceSpec insertionSlice ∧
      (((sortComponents insertionSlice getMockPCComponents "name").Pairwise
            (fun a b => a.Name ≤ b.Name) ∧
          ∀ v : String,
            ((sortComponents insertionSlice getMockPCComponents "name").filter
              (fun c => c.Name = v)).Perm (getMockPCComponents.filter (fun c => c.Name = v))) ∧
        ((sortComponents insertionSlice getMockPCComponents "price").Pairwise
            (fun a b => a.Price ≤ b.Price) ∧
          ∀ v : Int,
            ((sortComponents insertionSlice getMockPCComponents "price").filter
              (fun c => c.Price = v)).Perm (getMockPCComponents.filter (fun c => c.Price = v)))) :=
  ⟨insertionSlice_spec,
    sortComponents_ties_as_multiset insertionSlice insertionSlice_spec getMockPCComponents⟩

/-! ## Paginate stage -/

theorem wrapInt_of_inRange (z : Int) (hlo : -(2 ^ 63) ≤ z) (hhi : z < 2 ^ 63) :
    wrapInt z = z := by
  unfold wrapInt
  omega

theorem pageNumber_pos (s : String) : 1 ≤ pageNumber s := by
  unfold pageNumber
  split
  · exact le_refl 1
  · split <;> omega

theorem pageNumber_lt (s : String) : pageNumber s < 2 ^ 63 := by
  unfold pageNumber
  split
  · norm_num
  · rename_i page hpage
    have hr : -(2 ^ 63) ≤ page ∧ page < 2 ^ 63 := by
      unfold Atoi at hpage
      split at hpage
      · exact absurd hpage (by simp)
      · split at hpage
        · rename_i hin
          cases hpage
          exact hin
        · exact absurd hpage (by simp)
    split
    · norm_num
    · exact hr.2

theorem pageNumber_of_Atoi (s : String) (p : Int) (h : Atoi s = some p) (hp : 1 ≤ p) :
    pageNumber s = p := by
  unfold pageNumber
  rw [h]
  simp only
  split
  · omega
  · rfl

/-- When neither the product `(page-1)*itemsPerPage` nor the sum
`startIdx+itemsPerPage` leaves the 64-bit range, `paginateComponents` returns
the slice the specification describes. -/
theorem paginateComponents_eq_specPage (xs : List PCComponent) (s : String) (k : Int)
    (hk : 1 ≤ k) (hfit : (pageNumber s - 1) * k + k < 2 ^ 63) :
    paginateComponents xs s k = some (specPage xs (pageNumber s) k) := by
  have h1 := pageNumber_pos s
  have h2 := pageNumber_lt s
  have hprod : 0 ≤ (pageNumber s - 1) * k := Int.mul_nonneg (by omega) (by omega)
  have hsub : intSub (pageNumber s) 1 = pageNumber s - 1 :=
    wrapInt_of_inRange _ (by omega) (by omega)
  have hmul : intMul (pageNumber s - 1) k = (pageNumber s - 1) * k :=
    wrapInt_of_inRange _ (by omega) (by omega)
  have hadd : intAdd ((pageNumber s - 1) * k) k = (pageNumber s - 1) * k + k :=
    wrapInt_of_inRange _ (by omega) (by omega)
  unfold paginateComponents specPage
  simp only [hsub, hmul, hadd]
  generalize (pageNumber s - 1) * k = start at hprod hfit
  obtain ⟨n, rfl⟩ := Int.eq_ofNat_of_zero_le hprod
  obtain ⟨m, rfl⟩ := Int.eq_ofNat_of_zero_le (show (0 : Int) ≤ k by omega)
  by_cases hge : (n : Int) ≥ (xs.length : Int)
  · have hdrop : xs.drop n = [] := List.drop_eq_nil_of_le (by omega)
    simp [hge, hdrop]
  · simp only [hge, if_false]
    have hnlt : n < xs.length := by omega
    by_cases hgt : (n : Int) + (m : Int) > (xs.length : Int)
    · have hmin : min ((n : Int) + (m : Int)) (xs.length : Int) = (xs.length : Int) :=
        min_eq_right (by omega)
      simp only [hgt, if_true, hmin, sliceExpr, Int.toNat_ofNat]
      have hc : (0 : Int) ≤ (n : Int) ∧ (n : Int) ≤ (xs.length : Int) ∧
          (xs.length : Int) ≤ (xs.length : Int) := by omega
      simp only [hc, and_self, if_true]
      congr 2
      omega
    · have hmin : min ((n : Int) + (m : Int)) (xs.length : Int) = (n : Int) + (m : Int) :=
        min_eq_left (by omega)
      simp only [hgt, if_false, hmin, sliceExpr, Int.toNat_ofNat]
      have hc : (0 : Int) ≤ (n : Int) ∧ (n : Int) ≤ (n : Int) + (m : Int) ∧
          (n : Int) + (m : Int) ≤ (xs.length : Int) := by omega
      simp only [hc, and_self, if_true]
      congr 2
      omega

theorem pageNumber_of_bad (s : String)
    (h : Atoi s = none ∨ ∃ v, Atoi s = some v ∧ v < 1) : pageNumber s = 1 := by
  unfold pageNumber
  rcases h with h | ⟨v, hv, hlt⟩
  · rw [h]
  · rw [hv]
    simp [hlt]

theorem pageNumber_one : pageNumber "1" = 1 := by decide

/-- C7: for a page text that `strconv.Atoi` rejects or that parses to a value
below 1, `paginateComponents xs s k` is `paginateComponents xs "1" k`; for a
page size `1 ≤ k < 2^63` that common result is the first `k` records. -/
theorem paginateComponents_bad_page (xs : List PCComponent) (s : String) (k : Int)
    (h : Atoi s = none ∨ ∃ v, Atoi s = some v ∧ v < 1) :
    paginateComponents xs s k = paginateComponents xs "1" k ∧
      (1 ≤ k → k < 2 ^ 63 → paginateComponents xs s k = some (xs.take k.toNat)) := by
  have hs : pageNumber s = 1 := pageNumber_of_bad s h
  refine ⟨?_, ?_⟩
  · unfold paginateComponents
    rw [hs, pageNumber_one]
  · intro hk hlt
    rw [paginateComponents_eq_specPage xs s k hk (by rw [hs]; omega), hs]
    unfold specPage
    simp only [sub_self, zero_mul, zero_add, Int.toNat_zero, List.drop_zero, sub_zero]
    by_cases hle : k ≤ (xs.length : Int)
    · rw [min_eq_left hle]
    · rw [min_eq_right (by omega), Int.toNat_ofNat, List.take_length]
      have hlen : xs.length ≤ k.toNat := by omega
      rw [List.take_of_length_le hlen]

/-- Witness of C7: the page texts "", "abc", "0" and "-5" on the catalog with
page size 3. -/
theorem paginateComponents_bad_page_witness :
    (paginateComponents getMockPCComponents "" 3 = paginateComponents getMockPCComponents "1" 3 ∧
        ((1 : Int) ≤ 3 → (3 : Int) < 2 ^ 63 →
          paginateComponents getMockPCComponents "" 3
            = some (getMockPCComponents.take (3 : Int).toNat))) ∧
      (paginateComponents getMockPCComponents "abc" 3
          = paginateComponents getMockPCComponents "1" 3 ∧
        ((1 : Int) ≤ 3 → (3 : Int) < 2 ^ 63 →
          paginateComponents getMockPCComponents "abc" 3
            = some (getMockPCComponents.take (3 : Int).toNat))) ∧
      (paginateComponents getMockPCComponents "0" 3
          = paginateComponents getMockPCComponents "1" 3 ∧
        ((1 : Int) ≤ 3 → (3 : Int) < 2 ^ 63 →
          paginateComponents getMockPCComponents "0" 3
            = some (getMockPCComponents.take (3 : Int).toNat))) ∧
      (paginateComponents getMockPCComponents "-5" 3
          = paginateComponents getMockPCComponents "1" 3 ∧
        ((1 : Int) ≤ 3 → (3 : Int) < 2 ^ 63 →
          paginateComponents getMockPCComponents "-5" 3
            = some (getMockPCComponents.take (3 : Int).toNat))) :=
  ⟨paginateComponents_bad_page getMockPCComponents "" 3 (Or.inl (by decide)),
    paginateComponents_bad_page getMockPCComponents "abc" 3 (Or.inl (by decide)),
    paginateComponents_bad_page getMockPCComponents "0" 3
      (Or.inr ⟨0, by decide, by decide⟩),
    paginateComponents_bad_page getMockPCComponents "-5" 3
      (Or.inr ⟨-5, by decide, by decide⟩)⟩

/-- C6, counterexample: the page text "9223372036854775808" denotes the integer
`2^63 ≥ 1`, and `(2^63 - 1) * 3` is far beyond the 12 records of the catalog,
yet `paginateComponents` returns the first three records, not the empty
sequence: `strconv.Atoi` reports a range error and the page becomes 1. -/
theorem paginateComponents_numeral_out_of_range :
    decimalValue "9223372036854775808" = some 9223372036854775808 ∧
      (1 : Int) ≤ 9223372036854775808 ∧
      ((9223372036854775808 - 1) * 3 : Int) ≥ (getMockPCComponents.length : Int) ∧
      paginateComponents getMockPCComponents "9223372036854775808" 3
        = some (getMockPCComponents.take 3) ∧
      paginateComponents getMockPCComponents "9223372036854775808" 3 ≠ some [] := by
  decide

/-- C6, amended: for a page size `k` (in particular `k ≥ 1`) and a page text
that `strconv.Atoi` accepts with value `p ≥ 1`, when `(p-1)*k ≥ len(xs)` and
`(p-1)*k` fits the 64-bit `int`, `paginateComponents` returns the empty
sequence and does not fail. -/
theorem paginateComponents_past_end (xs : List PCComponent) (s : String) (k p : Int)
    (hs : Atoi s = some p) (hp : 1 ≤ p)
    (hge : (p - 1) * k ≥ (xs.length : Int)) (hfit : (p - 1) * k < 2 ^ 63) :
    paginateComponents xs s k = some [] := by
  have hpn : pageNumber s = p := pageNumber_of_Atoi s p hs hp
  have hlt : p < 2 ^ 63 := hpn ▸ pageNumber_lt s
  have hsub : intSub p 1 = p - 1 := wrapInt_of_inRange _ (by omega) (by omega)
  have hmul : intMul (p - 1) k = (p - 1) * k := wrapInt_of_inRange _ (by omega) (by omega)
  unfold paginateComponents
  simp only [hpn, hsub, hmul]
  simp [hge]

/-- Witness of C6 (amended): page "5" of the 12-record catalog, page size 3. -/
theorem paginateComponents_past_end_witness :
    Atoi "5" = some 5 ∧ ((5 - 1) * 3 : Int) ≥ (getMockPCComponents.length : Int) ∧
      paginateComponents getMockPCComponents "5" 3 = some [] :=
  ⟨by decide, by decide,
    paginateComponents_past_end getMockPCComponents "5" 3 5 (by decide) (by decide)
      (by decide) (by decide)⟩

/-- C2, the code at a failing input: for the page text "6148914691236517207"
and page size 3 the product `(page-1)*3 = 2^64 + 2` wraps around to 2, so
`paginateComponents` returns records 2, 3 and 4 of the catalog, while the
slice of the specification, which starts at `2^64 + 2`, is empty; for the page
text "4611686018427387905" the product wraps to `-2^62` and the slice
expression panics. -/
theorem paginateComponents_wraps_around :
    pageNumber "6148914691236517207" = 6148914691236517207 ∧
      paginateComponents getMockPCComponents "6148914691236517207" 3
        = some ((getMockPCComponents.drop 2).take 3) ∧
      specPage getMockPCComponents (pageNumber "6148914691236517207") 3 = [] ∧
      paginateComponents getMockPCComponents "4611686018427387905" 3 = none := by
  decide

/-! ## Request handlers -/

theorem sortComponents_length (sortSlice : SortSlice) (h : SortSliceSpec sortSlice)
    (xs : List PCComponent) (key : String) :
    (sortComponents sortSlice xs key).length = xs.length := by
  unfold sortComponents
  split
  · exact (sortSlice_key (fun c => c.Name)
      (fun x y => String.decidableLT x.Name y.Name) sortSlice h xs).1.length_eq
  · split
    · exact (sortSlice_key (fun c => c.Price)
        (fun x y => Int.decLt x.Price y.Price) sortSlice h xs).1.length_eq
    · rfl

/-- C5, counterexample: for the query with no filter, no sort key and page 5
(one page past the 12 records) the handler of `main` answers 404 while the
handler of `setupRouter` answers 200 with an empty page. -/
theorem handlers_differ_past_last_page :
    mainHandler insertionSlice ⟨"", "", "", "5"⟩ = Response.notFound ∧
      setupRouterHandler insertionSlice ⟨"", "", "", "5"⟩ = Response.ok [] := by
  decide

/-- C5, amended: for every query the handler of `main` produces the outcome of
the single-check handler of `setupRouter`, except that where the latter answers
200 with an empty page (the filter kept some record but the requested page lies
past the last one) the handler of `main` answers 404. -/
theorem mainHandler_eq_setupRouterHandler (sortSlice : SortSlice)
    (h : SortSliceSpec sortSlice) (q : Query) :
    mainHandler sortSlice q =
      (match setupRouterHandler sortSlice q with
        | Response.ok [] => Response.notFound
        | r => r) := by
  unfold mainHandler setupRouterHandler checkError
  simp only [sortComponents_length sortSlice h]
  by_cases hf : ((filterComponentsByTypeAndBrand getMockPCComponents q.type_ q.brand).length
      == 0) = true
  · simp only [hf, if_true]
  · simp only [hf]
    cases hp : paginateComponents
        (sortComponents sortSlice
          (filterComponentsByTypeAndBrand getMockPCComponents q.type_ q.brand) q.sort)
        q.page 3 with
    | none => simp
    | some page =>
      cases page with
      | nil => simp
      | cons c cs => simp

/-- Witness of C5 (amended): the query of the integration test and the query
of the counterexample, with insertion sort for `sort.Slice`. -/
theorem mainHandler_eq_setupRouterHandler_witness :
    SortSliceSpec insertionSlice ∧
      (mainHandler insertionSlice ⟨"CPU", "Intel", "name", "1"⟩ =
        (match setupRouterHandler insertionSlice ⟨"CPU", "Intel", "name", "1"⟩ with
          | Response.ok [] => Response.notFound
          | r => r)) ∧
      (mainHandler insertionSlice ⟨"", "", "", "5"⟩ =
        (match setupRouterHandler insertionSlice ⟨"", "", "", "5"⟩ with
          | Response.ok [] => Response.notFound
          | r => r)) :=
  ⟨insertionSlice_spec,
    mainHandler_eq_setupRouterHandler insertionSlice insertionSlice_spec
      ⟨"CPU", "Intel", "name", "1"⟩,
    mainHandler_eq_setupRouterHandler insertionSlice insertionSlice_spec ⟨"", "", "", "5"⟩⟩

/-! ## Further properties of the filter and sort stages -/

/-- C11: with both filters empty, `filterComponentsByTypeAndBrand` returns its
input. -/
theorem filter_no_filters (C : List PCComponent) :
    filterComponentsByTypeAndBrand C "" "" = C := by
  simp [filterComponentsByTypeAndBrand]

/-- C14: filtering the catalog with type "CPU" and brand "Intel" yields exactly
one record, with `Type` "CPU", `Brand` "Intel" and `Name`
"Intel Core i9-10900K". -/
theorem filter_catalog_cpu_intel :
    (filterComponentsByTypeAndBrand getMockPCComponents "CPU" "Intel").length = 1 ∧
      (filterComponentsByTypeAndBrand getMockPCComponents "CPU" "Intel").map
          (fun c => (c.Type_, c.Brand, c.Name))
        = [("CPU", "Intel", "Intel Core i9-10900K")] := by
  decide

/-- A list in non-decreasing `Name` order that is a permutation of the catalog
carries the twelve names in one order only. -/
theorem catalog_names_sorted (out : List PCComponent) (hperm : out.Perm getMockPCComponents)
    (hsorted : out.Pairwise (fun a b => a.Name ≤ b.Name)) :
    out.map (fun c => c.Name) =
      ["AMD Radeon RX 6800 XT", "AMD Ryzen 9 5900X", "ASUS ROG Strix Z490-E Gaming",
        "Corsair RM850x 850W", "Corsair Vengeance RGB Pro 16GB", "EVGA SuperNOVA 850 G5",
        "G.Skill Trident Z Neo 32GB", "Intel Core i9-10900K",
        "MSI MPG X570 Gaming Pro Carbon WiFi", "NVIDIA GeForce RTX 3080",
        "Samsung 970 EVO Plus 1TB", "WD Black SN750 NVMe SSD 1TB"] := by
  have h1 : (out.map (fun c => c.Name)).Perm (getMockPCComponents.map (fun c => c.Name)) :=
    hperm.map _
  have h2 : (out.map (fun c => c.Name)).Sorted (· ≤ ·) := by
    unfold List.Sorted
    rw [List.pairwise_map]
    exact hsorted
  refine List.eq_of_perm_of_sorted (h1.trans ?_) h2 ?_
  · decide
  · refine List.Pairwise.imp (fun h => String.le_iff_toList_le.mpr h)
      (R := fun a b : String => a.toList ≤ b.toList) ?_
    decide

/-- C12, what the code does on the catalog: for a `sort.Slice` that keeps its
documented promise, `sortComponents` with key "name" puts the record named
"AMD Radeon RX 6800 XT" first and the record named
"WD Black SN750 NVMe SSD 1TB" last; "Samsung 970 EVO Plus 1TB" is the one
before the last. -/
theorem sortComponents_catalog_by_name (sortSlice : SortSlice)
    (h : SortSliceSpec sortSlice) :
    ((sortComponents sortSlice getMockPCComponents "name").head?).map (fun c => c.Name)
        = some "AMD Radeon RX 6800 XT" ∧
      ((sortComponents sortSlice getMockPCComponents "name").getLast?).map (fun c => c.Name)
        = some "WD Black SN750 NVMe SSD 1TB" ∧
      (sortComponents sortSlice getMockPCComponents "name").map (fun c => c.Name) =
        ["AMD Radeon RX 6800 XT", "AMD Ryzen 9 5900X", "ASUS ROG Strix Z490-E Gaming",
          "Corsair RM850x 850W", "Corsair Vengeance RGB Pro 16GB", "EVGA SuperNOVA 850 G5",
          "G.Skill Trident Z Neo 32GB", "Intel Core i9-10900K",
          "MSI MPG X570 Gaming Pro Carbon WiFi", "NVIDIA GeForce RTX 3080",
          "Samsung 970 EVO Plus 1TB", "WD Black SN750 NVMe SSD 1TB"] := by
  have hk := sortSlice_key (fun c => c.Name)
    (fun x y => String.decidableLT x.Name y.Name) sortSlice h getMockPCComponents
  have hout : sortComponents sortSlice getMockPCComponents "name"
      = sortSlice (fun x y => decide (x.Name < y.Name)) getMockPCComponents := by
    simp [sortComponents]
  rw [hout]
  have hnames := catalog_names_sorted _ hk.1 hk.2
  refine ⟨?_, ?_, hnames⟩
  · rw [← List.head?_map, hnames]
    rfl
  · rw [← List.getLast?_map, hnames]
    rfl

/-- Witness of C12: the catalog sorted by name with insertion sort for
`sort.Slice`. -/
theorem sortComponents_catalog_by_name_witness :
    SortSliceSpec insertionSlice ∧
      (((sortComponents insertionSlice getMockPCComponents "name").head?).map (fun c => c.Name)
          = some "AMD Radeon RX 6800 XT" ∧
        ((sortComponents insertionSlice getMockPCComponents "name").getLast?).map
            (fun c => c.Name)
          = some "WD Black SN750 NVMe SSD 1TB" ∧
        (sortComponents insertionSlice getMockPCComponents "name").map (fun c => c.Name) =
          ["AMD Radeon RX 6800 XT", "AMD Ryzen 9 5900X", "ASUS ROG Strix Z490-E Gaming",
            "Corsair RM850x 850W", "Corsair Vengeance RGB Pro 16GB", "EVGA SuperNOVA 850 G5",
            "G.Skill Trident Z Neo 32GB", "Intel Core i9-10900K",
            "MSI MPG X570 Gaming Pro Carbon WiFi", "NVIDIA GeForce RTX 3080",
            "Samsung 970 EVO Plus 1TB", "WD Black SN750 NVMe SSD 1TB"]) :=
  ⟨insertionSlice_spec, sortComponents_catalog_by_name insertionSlice insertionSlice_spec⟩

/-! ## Further properties of the paginate stage -/

theorem wrapInt_range (z : Int) : -(2 ^ 63) ≤ wrapInt z ∧ wrapInt z < 2 ^ 63 := by
  unfold wrapInt
  omega

/-- The slice of the specification is `k` records from index `(p-1)*k` on. -/
theorem specPage_eq_drop_take (xs : List PCComponent) (p k : Int) (hp : 1 ≤ p) (hk : 0 ≤ k) :
    specPage xs p k = (xs.drop ((p - 1) * k).toNat).take k.toNat := by
  have hprod : 0 ≤ (p - 1) * k := Int.mul_nonneg (by omega) hk
  unfold specPage
  simp only
  generalize (p - 1) * k = start at hprod
  obtain ⟨n, rfl⟩ := Int.eq_ofNat_of_zero_le hprod
  obtain ⟨m, rfl⟩ := Int.eq_ofNat_of_zero_le hk
  simp only [Int.toNat_ofNat]
  rw [List.take_eq_take, List.length_drop]
  omega

/-- Without overflow, `paginateComponents` returns `k` records from index
`(page-1)*k` on. -/
theorem paginateComponents_eq_drop_take (xs : List PCComponent) (s : String) (k : Int)
    (hk : 1 ≤ k) (hfit : (pageNumber s - 1) * k + k < 2 ^ 63) :
    paginateComponents xs s k
      = some ((xs.drop ((pageNumber s - 1) * k).toNat).take k.toNat) := by
  rw [paginateComponents_eq_specPage xs s k hk hfit,
    specPage_eq_drop_take xs _ k (pageNumber_pos s) (by omega)]

/-- Whenever `paginateComponents` returns, with or without overflow, the page
is a sublist of the input with at most `k` records. -/
theorem paginateComponents_some_bound (xs page : List PCComponent) (s : String) (k : Int)
    (hk : 1 ≤ k) (hint : k < 2 ^ 63) (hsome : paginateComponents xs s k = some page) :
    (page.length : Int) ≤ min k (xs.length : Int) ∧ page.Sublist xs := by
  unfold paginateComponents at hsome
  simp only at hsome
  have hr := wrapInt_range (intSub (pageNumber s) 1 * k)
  have hlo : intMul (intSub (pageNumber s) 1) k = wrapInt (intSub (pageNumber s) 1 * k) := rfl
  rw [hlo] at hsome
  generalize wrapInt (intSub (pageNumber s) 1 * k) = lo at hsome hr
  split at hsome
  · cases hsome
    exact ⟨by simp; omega, List.nil_sublist xs⟩
  · rename_i hlt
    have hhi : ∀ hi : Int,
        (if intAdd lo k > (xs.length : Int) then (xs.length : Int) else intAdd lo k) = hi →
        0 ≤ lo → lo ≤ hi → hi - lo ≤ k := by
      intro hi hdef h0 hle
      unfold intAdd wrapInt at hdef
      split at hdef <;> omega
    generalize (if intAdd lo k > (xs.length : Int) then (xs.length : Int) else intAdd lo k)
      = hi at hsome hhi
    have hk2 := hhi hi rfl
    unfold sliceExpr at hsome
    by_cases hc : 0 ≤ lo ∧ lo ≤ hi ∧ hi ≤ (xs.length : Int)
    · rw [if_pos hc] at hsome
      cases hsome
      refine ⟨?_, (List.take_sublist _ _).trans (List.drop_sublist _ _)⟩
      rw [List.length_take, List.length_drop]
      have := hk2 hc.1 hc.2.1
      omega
    · rw [if_neg hc] at hsome
      exact absurd hsome (by simp)

/-- C13: for a list with at least `k` elements (`k ≥ 1` a Go `int`),
`paginateComponents xs "1" k` returns exactly `k` records, the first `k`
elements of `xs` in order; on the catalog with `k = 3` these are the records
named "Intel Core i9-10900K", "NVIDIA GeForce RTX 3080" and
"Corsair Vengeance RGB Pro 16GB". -/
theorem paginateComponents_first_page (xs : List PCComponent) (k : Int)
    (hk : 1 ≤ k) (hint : k < 2 ^ 63) (hlen : k ≤ (xs.length : Int)) :
    paginateComponents xs "1" k = some (xs.take k.toNat) ∧
      ((xs.take k.toNat).length : Int) = k ∧
      (paginateComponents getMockPCComponents "1" 3).map
          (fun page => page.map (fun c => c.Name))
        = some ["Intel Core i9-10900K", "NVIDIA GeForce RTX 3080",
            "Corsair Vengeance RGB Pro 16GB"] := by
  refine ⟨?_, ?_, by decide⟩
  · rw [paginateComponents_eq_drop_take xs "1" k hk (by rw [pageNumber_one]; omega),
      pageNumber_one]
    simp
  · rw [List.length_take]
    omega

/-- Witness of C13: the catalog with page size 3. -/
theorem paginateComponents_first_page_witness :
    paginateComponents getMockPCComponents "1" 3
        = some (getMockPCComponents.take (3 : Int).toNat) ∧
      ((getMockPCComponents.take (3 : Int).toNat).length : Int) = 3 ∧
      (paginateComponents getMockPCComponents "1" 3).map
          (fun page => page.map (fun c => c.Name))
        = some ["Intel Core i9-10900K", "NVIDIA GeForce RTX 3080",
            "Corsair Vengeance RGB Pro 16GB"] :=
  paginateComponents_first_page getMockPCComponents 3 (by decide) (by decide) (by decide)

/-- C17: for a `sort.Slice` that keeps its documented promise and a page size
`k ≥ 1` (a Go `int`), `sortComponents` keeps the length of its input, every
page `paginateComponents` returns has at most `min(k, len(xs))` records, and
it does return a page whenever `(page-1)*k + k` fits the 64-bit `int`. -/
theorem sort_paginate_cardinality (sortSlice : SortSlice) (h : SortSliceSpec sortSlice)
    (xs : List PCComponent) (key s : String) (k : Int) (hk : 1 ≤ k) (hint : k < 2 ^ 63) :
    (sortComponents sortSlice xs key).length = xs.length ∧
      (∀ page, paginateComponents xs s k = some page →
        (page.length : Int) ≤ min k (xs.length : Int)) ∧
      ((pageNumber s - 1) * k + k < 2 ^ 63 → ∃ page, paginateComponents xs s k = some page) := by
  refine ⟨sortComponents_length sortSlice h xs key, ?_, ?_⟩
  · intro page hpage
    exact (paginateComponents_some_bound xs page s k hk hint hpage).1
  · intro hfit
    exact ⟨_, paginateComponents_eq_drop_take xs s k hk hfit⟩

/-- Witness of C17: the catalog, key "price", page "2", page size 3. -/
theorem sort_paginate_cardinality_witness :
    SortSliceSpec insertionSlice ∧
      ((sortComponents insertionSlice getMockPCComponents "price").length
          = getMockPCComponents.length ∧
        (∀ page, paginateComponents getMockPCComponents "2" 3 = some page →
          (page.length : Int) ≤ min 3 (getMockPCComponents.length : Int)) ∧
        ((pageNumber "2" - 1) * 3 + 3 < 2 ^ 63 →
          ∃ page, paginateComponents getMockPCComponents "2" 3 = some page)) :=
  ⟨insertionSlice_spec,
    sort_paginate_cardinality insertionSlice insertionSlice_spec getMockPCComponents
      "price" "2" 3 (by decide) (by decide)⟩

/-- C18, the code at a failing input: `strconv.Atoi` accepts the page text
"4611686018427387905" (`2^62 + 1`, below the largest 64-bit `int`); with page
size 3 the start index `2^62 * 3` wraps around to `-2^62`, which passes the
guard `startIdx >= len(components)`, so the slice expression is reached with a
negative bound and panics, and so does the handler of `main`. -/
theorem paginateComponents_slice_out_of_range :
    Atoi "4611686018427387905" = some 4611686018427387905 ∧
      intMul (intSub (pageNumber "4611686018427387905") 1) 3 = -4611686018427387904 ∧
      sliceExpr getMockPCComponents (-4611686018427387904) (-4611686018427387901) = none ∧
      paginateComponents getMockPCComponents "4611686018427387905" 3 = none ∧
      mainHandler insertionSlice ⟨"", "", "", "4611686018427387905"⟩ = Response.panicked := by
  decide

/-! ## Further properties of the handler of `main` -/

/-- For a conforming `sort.Slice` the output of `sortComponents` is a
permutation of its input, whatever the key. -/
theorem sortComponents_perm (sortSlice : SortSlice) (h : SortSliceSpec sortSlice)
    (xs : List PCComponent) (key : String) : (sortComponents sortSlice xs key).Perm xs := by
  unfold sortComponents
  split
  · exact (sortSlice_key (fun c => c.Name)
      (fun x y => String.decidableLT x.Name y.Name) sortSlice h xs).1
  · split
    · exact (sortSlice_key (fun c => c.Price)
        (fun x y => Int.decLt x.Price y.Price) sortSlice h xs).1
    · exact List.Perm.refl xs

/-- C15: for a query whose type/brand combination matches no record of the
catalog, the handler of `main` answers 404 "No data available" (and so renders
no page), whatever the sort key, the page text and `sort.Slice`. -/
theorem mainHandler_no_match (sortSlice : SortSlice) (q : Query)
    (hnone : ∀ c ∈ getMockPCComponents,
      ¬ ((q.type_ = "" ∨ c.Type_ = q.type_) ∧ (q.brand = "" ∨ c.Brand = q.brand))) :
    mainHandler sortSlice q = Response.notFound := by
  have hf : filterComponentsByTypeAndBrand getMockPCComponents q.type_ q.brand = [] := by
    rw [filter_eq_filter, List.filter_eq_nil_iff]
    intro c hc hkeep
    apply hnone c hc
    simpa [keeps] using hkeep
  simp [mainHandler, hf, checkError]

/-- Witness of C15: no record of the catalog has type "CPU" and brand
"NVIDIA". -/
theorem mainHandler_no_match_witness :
    mainHandler insertionSlice ⟨"CPU", "NVIDIA", "name", "1"⟩ = Response.notFound :=
  mainHandler_no_match insertionSlice ⟨"CPU", "NVIDIA", "name", "1"⟩ (by decide)

/-- C16: for the query type=CPU, brand=Intel, sort=name, page=1 and a
`sort.Slice` that keeps its documented promise, the handler of `main` answers
200 and the page it hands to rendering is the one record named
"Intel Core i9-10900K". -/
theorem mainHandler_cpu_intel (sortSlice : SortSlice) (h : SortSliceSpec sortSlice) :
    mainHandler sortSlice ⟨"CPU", "Intel", "name", "1"⟩ =
      Response.ok
        [⟨"CPU", "Intel", "Intel Core i9-10900K", "https://static.shop.kz/upload/resize_cache/iblock/481/450_450_1/154212x1.jpg", 500⟩] := by
  have hf : filterComponentsByTypeAndBrand getMockPCComponents "CPU" "Intel" =
      [⟨"CPU", "Intel", "Intel Core i9-10900K", "https://static.shop.kz/upload/resize_cache/iblock/481/450_450_1/154212x1.jpg", 500⟩] := by
    decide
  have hs := sortComponents_perm sortSlice h
    [⟨"CPU", "Intel", "Intel Core i9-10900K", "https://static.shop.kz/upload/resize_cache/iblock/481/450_450_1/154212x1.jpg", 500⟩]
    "name"
  rw [List.perm_singleton] at hs
  have hp : paginateComponents
      [⟨"CPU", "Intel", "Intel Core i9-10900K", "https://static.shop.kz/upload/resize_cache/iblock/481/450_450_1/154212x1.jpg", 500⟩]
      "1" 3 =
      some [⟨"CPU", "Intel", "Intel Core i9-10900K", "https://static.shop.kz/upload/resize_cache/iblock/481/450_450_1/154212x1.jpg", 500⟩] := by
    decide
  simp only [mainHandler, hf, hs, hp]
  decide

/-- Witness of C16: insertion sort for `sort.Slice`. -/
theorem mainHandler_cpu_intel_witness :
    SortSliceSpec insertionSlice ∧
      mainHandler insertionSlice ⟨"CPU", "Intel", "name", "1"⟩ =
        Response.ok
          [⟨"CPU", "Intel", "Intel Core i9-10900K", "https://static.shop.kz/upload/resize_cache/iblock/481/450_450_1/154212x1.jpg", 500⟩] :=
  ⟨insertionSlice_spec, mainHandler_cpu_intel insertionSlice insertionSlice_spec⟩

/-- C20: for a `sort.Slice` that keeps its documented promise, whenever the
handler of `main` answers 200, the page it renders has between 1 and 3
records, each a record of the catalog that satisfies every non-empty type and
brand filter of the query. -/
theorem mainHandler_ok_page (sortSlice : SortSlice) (h : SortSliceSpec sortSlice)
    (q : Query) (page : List PCComponent) (hok : mainHandler sortSlice q = Response.ok page) :
    1 ≤ page.length ∧ page.length ≤ 3 ∧
      ∀ c ∈ page, c ∈ getMockPCComponents ∧
        (q.type_ ≠ "" → c.Type_ = q.type_) ∧ (q.brand ≠ "" → c.Brand = q.brand) := by
  unfold mainHandler at hok
  simp only at hok
  split at hok
  · exact absurd hok (by simp)
  · split at hok
    · exact absurd hok (by simp)
    · split at hok
      · exact absurd hok (by simp)
      · rename_i paginated hpag
        split at hok
        · exact absurd hok (by simp)
        · rename_i hne
          cases hok
          have hb := paginateComponents_some_bound _ page q.page 3 (by decide) (by decide) hpag
          refine ⟨?_, ?_, ?_⟩
          · simp only [checkError, beq_iff_eq] at hne
            omega
          · have := hb.1
            omega
          · intro c hc
            have hc2 : c ∈ filterComponentsByTypeAndBrand getMockPCComponents q.type_ q.brand :=
              (sortComponents_perm sortSlice h _ q.sort).subset (hb.2.subset hc)
            rw [filter_eq_filter, List.mem_filter] at hc2
            refine ⟨hc2.1, ?_, ?_⟩
            · intro ht
              have := hc2.2
              simp only [keeps, Bool.and_eq_true, Bool.or_eq_true, beq_iff_eq] at this
              exact this.1.resolve_left ht
            · intro hbne
              have := hc2.2
              simp only [keeps, Bool.and_eq_true, Bool.or_eq_true, beq_iff_eq] at this
              exact this.2.resolve_left hbne

/-- Witness of C20: the query type=CPU, sort=price, page=1, which renders the
two CPU records. -/
theorem mainHandler_ok_page_witness :
    SortSliceSpec insertionSlice ∧
      mainHandler insertionSlice ⟨"CPU", "", "price", "1"⟩ =
        Response.ok
          [⟨"CPU", "Intel", "Intel Core i9-10900K", "https://static.shop.kz/upload/resize_cache/iblock/481/450_450_1/154212x1.jpg", 500⟩,
           ⟨"CPU", "AMD", "AMD Ryzen 9 5900X", "https://static.shop.kz/upload/resize_cache/iblock/a05/450_450_1/177555n1.jpg", 550⟩] ∧
      (1 ≤ [(⟨"CPU", "Intel", "Intel Core i9-10900K", "https://static.shop.kz/upload/resize_cache/iblock/481/450_450_1/154212x1.jpg", 500⟩ : PCComponent),
            ⟨"CPU", "AMD", "AMD Ryzen 9 5900X", "https://static.shop.kz/upload/resize_cache/iblock/a05/450_450_1/177555n1.jpg", 550⟩].length ∧
        [(⟨"CPU", "Intel", "Intel Core i9-10900K", "https://static.shop.kz/upload/resize_cache/iblock/481/450_450_1/154212x1.jpg", 500⟩ : PCComponent),
            ⟨"CPU", "AMD", "AMD Ryzen 9 5900X", "https://static.shop.kz/upload/resize_cache/iblock/a05/450_450_1/177555n1.jpg", 550⟩].length ≤ 3 ∧
        ∀ c ∈ [(⟨"CPU", "Intel", "Intel Core i9-10900K", "https://static.shop.kz/upload/resize_cache/iblock/481/450_450_1/154212x1.jpg", 500⟩ : PCComponent),
            ⟨"CPU", "AMD", "AMD Ryzen 9 5900X", "https://static.shop.kz/upload/resize_cache/iblock/a05/450_450_1/177555n1.jpg", 550⟩],
          c ∈ getMockPCComponents ∧
            ((⟨"CPU", "", "price", "1"⟩ : Query).type_ ≠ "" →
              c.Type_ = (⟨"CPU", "", "price", "1"⟩ : Query).type_) ∧
            ((⟨"CPU", "", "price", "1"⟩ : Query).brand ≠ "" →
              c.Brand = (⟨"CPU", "", "price", "1"⟩ : Query).brand)) :=
  ⟨insertionSlice_spec, by decide,
    mainHandler_ok_page insertionSlice insertionSlice_spec ⟨"CPU", "", "price", "1"⟩ _
      (by decide)⟩

/-! ## Pages partition the input -/

theorem lt_pageCount_iff (n k i : Nat) (hk : 1 ≤ k) : i < pageCount n k ↔ i * k < n := by
  unfold pageCount
  rw [Nat.lt_iff_add_one_le, Nat.le_div_iff_mul_le (by omega)]
  have : (i + 1) * k = i * k + k := by ring
  omega

/-- Cutting a list into `n` consecutive chunks of `k` records and gluing them
again gives the list back, as soon as `n * k` reaches its length. -/
theorem flatten_chunks (k : Nat) : ∀ (n : Nat) (xs : List PCComponent),
    xs.length ≤ n * k →
      ((List.range n).map (fun i => (xs.drop (i * k)).take k)).flatten = xs := by
  intro n
  induction n with
  | zero =>
    intro xs hlen
    have : xs = [] := List.eq_nil_of_length_eq_zero (by omega)
    simp [this]
  | succ n ih =>
    intro xs hlen
    rw [List.range_succ_eq_map, List.map_cons, List.map_map, List.flatten_cons]
    have hrest : (List.range n).map ((fun i => (xs.drop (i * k)).take k) ∘ Nat.succ)
        = (List.range n).map (fun i => ((xs.drop k).drop (i * k)).take k) := by
      apply List.map_congr_left
      intro i _
      simp only [Function.comp, List.drop_drop]
      congr 2
      rw [Nat.succ_mul]
      omega
    rw [hrest, ih (xs.drop k) (by rw [List.length_drop, Nat.succ_mul] at *; omega)]
    simp

/-- A page whose start index fits the 64-bit `int` and is not below the length
of the list is empty. -/
theorem paginateComponents_nil_of_start_ge (xs : List PCComponent) (s : String) (k : Int)
    (hge : (pageNumber s - 1) * k ≥ (xs.length : Int))
    (hfit : (pageNumber s - 1) * k < 2 ^ 63) :
    paginateComponents xs s k = some [] := by
  have h1 := pageNumber_pos s
  have h2 := pageNumber_lt s
  have hsub : intSub (pageNumber s) 1 = pageNumber s - 1 :=
    wrapInt_of_inRange _ (by omega) (by omega)
  have hmul : intMul (pageNumber s - 1) k = (pageNumber s - 1) * k :=
    wrapInt_of_inRange _ (by omega) (by omega)
  unfold paginateComponents
  simp only [hsub, hmul]
  simp [hge]

/-- C19, counterexample: the catalog has `ceil(12/3) = 4` pages of 3 records,
yet three later pages are not empty. Page `2^63` (text "9223372036854775808")
is no 64-bit `int`, so `strconv.Atoi` fails and the first page is returned;
for page 6148914691236517207 the start index wraps around to 2 and records
2 to 4 are returned; for page 4611686018427387905 it wraps around to `-2^62`
and the call panics. -/
theorem later_pages_not_empty :
    pageCount getMockPCComponents.length 3 = 4 ∧
      decimalValue "9223372036854775808" = some 9223372036854775808 ∧
      paginateComponents getMockPCComponents "9223372036854775808" 3
        = some (getMockPCComponents.take 3) ∧
      Atoi "6148914691236517207" = some 6148914691236517207 ∧
      paginateComponents getMockPCComponents "6148914691236517207" 3
        = some ((getMockPCComponents.drop 2).take 3) ∧
      Atoi "4611686018427387905" = some 4611686018427387905 ∧
      paginateComponents getMockPCComponents "4611686018427387905" 3 ≠ some [] := by
  decide

/-- C19, amended: for a list of fewer than `2^62` records and a page size
`k ≥ 1` (a Go `int`), with `n = ceil(len(xs)/k)`: for each `i < n` every page
text that `strconv.Atoi` reads as `i + 1` gives the `k` records from index
`i * k` on, a non-empty page; these `n` pages glued in order are `xs`; and
every page text that `strconv.Atoi` reads as a later page `p` whose start index
`(p-1)*k` fits the 64-bit `int` gives the empty page. -/
theorem pages_partition (xs : List PCComponent) (k : Nat) (hk : 1 ≤ k)
    (hint : (k : Int) < 2 ^ 63) (hlen : xs.length < 2 ^ 62) :
    (∀ (s : String) (i : Nat), i < pageCount xs.length k → Atoi s = some ((i : Int) + 1) →
        paginateComponents xs s k = some ((xs.drop (i * k)).take k) ∧
          (xs.drop (i * k)).take k ≠ []) ∧
      ((List.range (pageCount xs.length k)).map
          (fun i => (xs.drop (i * k)).take k)).flatten = xs ∧
      (∀ (s : String) (p : Nat), pageCount xs.length k < p → Atoi s = some (p : Int) →
        ((p : Int) - 1) * k < 2 ^ 63 → paginateComponents xs s k = some []) := by
  refine ⟨?_, ?_, ?_⟩
  · intro s i hi hs
    have hik : i * k < xs.length := (lt_pageCount_iff xs.length k i hk).mp hi
    have hpn : pageNumber s = (i : Int) + 1 := pageNumber_of_Atoi s _ hs (by omega)
    have hprod : ((i : Int) + 1 - 1) * (k : Int) = ((i * k : Nat) : Int) := by
      push_cast
      ring
    have hfit : (pageNumber s - 1) * (k : Int) + (k : Int) < 2 ^ 63 := by
      rw [hpn, hprod]
      rcases Nat.eq_zero_or_pos i with h0 | hpos
      · subst h0
        simpa using hint
      · have hle : k ≤ i * k := Nat.le_mul_of_pos_left k hpos
        have h62 : (2 : Int) ^ 62 = ((2 ^ 62 : Nat) : Int) := by norm_num
        have h63 : (2 : Int) ^ 63 = 2 * 2 ^ 62 := by norm_num
        rw [h63, h62]
        omega
    refine ⟨?_, ?_⟩
    · rw [paginateComponents_eq_drop_take xs s k (by omega) hfit, hpn, hprod]
      simp only [Int.toNat_ofNat]
    · apply List.ne_nil_of_length_pos
      rw [List.length_take, List.length_drop]
      omega
  · apply flatten_chunks
    have hdm := Nat.div_add_mod (xs.length + k - 1) k
    have hmod := Nat.mod_lt (xs.length + k - 1) (show k > 0 by omega)
    unfold pageCount
    rw [Nat.mul_comm]
    omega
  · intro s p hp hs hfit
    have hp1 : 1 ≤ p := by omega
    have hpn : pageNumber s = (p : Int) := pageNumber_of_Atoi s _ hs (by omega)
    apply paginateComponents_nil_of_start_ge
    · rw [hpn]
      have hnot : ¬ (p - 1) * k < xs.length := by
        intro hlt
        have := (lt_pageCount_iff xs.length k (p - 1) hk).mpr hlt
        omega
      have hcast : ((p : Int) - 1) * (k : Int) = (((p - 1) * k : Nat) : Int) := by
        rw [Nat.cast_mul, Nat.cast_sub hp1]
        simp
      rw [hcast]
      omega
    · rw [hpn]
      exact hfit

/-- Witness of C19 (amended): the catalog at 3 records a page, with the page
texts "1" to "4" and the later page "5". -/
theorem pages_partition_witness :
    pageCount getMockPCComponents.length 3 = 4 ∧
      paginateComponents getMockPCComponents "4" 3
        = some ((getMockPCComponents.drop (3 * 3)).take 3) ∧
      ((List.range (pageCount getMockPCComponents.length 3)).map
          (fun i => (getMockPCComponents.drop (i * 3)).take 3)).flatten
        = getMockPCComponents ∧
      paginateComponents getMockPCComponents "5" 3 = some [] :=
  ⟨by decide,
    ((pages_partition getMockPCComponents 3 (by decide) (by decide) (by decide)).1
      "4" 3 (by decide) (by decide)).1,
    (pages_partition getMockPCComponents 3 (by decide) (by decide) (by decide)).2.1,
    (pages_partition getMockPCComponents 3 (by decide) (by decide) (by decide)).2.2
      "5" 5 (by decide) (by decide) (by decide)⟩

end Catalog
